import Mathlib

/-!
Verification development for the ipns-inspector repository.

The repository is a browser tool for inspecting and creating IPNS records.
Its core is an xstate (v5) finite state machine, `ipnsMachine` in
src/lib/ipns-machine.tsx, together with the identity helpers in
src/lib/peer-id.ts.  This file gives a shallow embedding of that machine:

* the context object of the machine becomes the structure `Context`;
* the machine states (including, for each state that invokes a promise
  actor, the input snapshot that xstate computes when the invocation
  starts) become the inductive `MState`;
* user events and the settlements of the invoked promise actors become the
  inductive `Event`; a settlement event carries the outcomes of the calls
  the actor makes to external services (network resolve and publish,
  signature validation, key decoding), so the branching logic written in
  the actor bodies in the repository is executed by the model itself;
* one synchronous transition of the machine becomes the function `step`
  (xstate v5 action order: exit actions of the left state, then transition
  actions, then entry actions of the entered state; self transitions
  without reenter are internal and run no entry or exit actions; events a
  state does not handle are discarded without changing anything);
* the external multiformats and libp2p encodings the helpers call
  (multibase base36 and base58btc, CID, multihash, varint, and the libp2p
  protobuf wrapping of Ed25519 public keys) are modelled executably below,
  at the level documented by those libraries; the repository only ever
  holds Ed25519 keys (its keypair type is Ed25519PrivateKey, generation
  requests Ed25519, and key import rejects every other type), so public
  keys are modelled as their 32 raw bytes.
-/

namespace IPNS

/-! ## Positional digit machinery (shared by base36, base58 and byte strings) -/

/-- Value of a little-endian digit string in base `b`. -/
def fromDigits (b : Nat) : List Nat → Nat
  | [] => 0
  | d :: ds => d + b * fromDigits b ds

/-- Little-endian digits of `n` in base `b`, with explicit fuel so that the
kernel can evaluate it.  `toDigits` supplies `n` itself as fuel, which is
always enough. -/
def digitsAux (b : Nat) : Nat → Nat → List Nat
  | 0, _ => []
  | fuel + 1, n => if n = 0 then [] else n % b :: digitsAux b fuel (n / b)

/-- Little-endian digits of `n` in base `b` (empty for `n = 0`). -/
def toDigits (b n : Nat) : List Nat := digitsAux b n n

theorem digitsAux_zero (b : Nat) (fuel : Nat) : digitsAux b fuel 0 = [] := by
  cases fuel <;> simp [digitsAux]

theorem digitsAux_congr (b : Nat) (hb : 2 ≤ b) :
    ∀ f₁ f₂ n, n ≤ f₁ → n ≤ f₂ → digitsAux b f₁ n = digitsAux b f₂ n := by
  intro f₁
  induction f₁ with
  | zero =>
    intro f₂ n h₁ _
    interval_cases n
    simp [digitsAux_zero]
  | succ f ih =>
    intro f₂ n h₁ h₂
    rcases Nat.eq_zero_or_pos n with hn | hn
    · subst hn; simp [digitsAux_zero]
    · obtain ⟨f₂', rfl⟩ : ∃ f₂', f₂ = f₂' + 1 := by
        rcases f₂ with _ | f₂'
        · omega
        · exact ⟨f₂', rfl⟩
      have hne : n ≠ 0 := Nat.pos_iff_ne_zero.mp hn
      have hdiv : n / b < n := Nat.div_lt_self hn (by omega)
      simp only [digitsAux, if_neg hne]
      rw [ih f₂' (n / b) (by omega) (by omega)]

theorem fromDigits_digitsAux (b : Nat) (hb : 2 ≤ b) :
    ∀ fuel n, n ≤ fuel → fromDigits b (digitsAux b fuel n) = n := by
  intro fuel
  induction fuel with
  | zero => intro n h; interval_cases n; simp [digitsAux, fromDigits]
  | succ f ih =>
    intro n h
    rcases Nat.eq_zero_or_pos n with hn | hn
    · subst hn; simp [digitsAux_zero, fromDigits]
    · have hne : n ≠ 0 := Nat.pos_iff_ne_zero.mp hn
      have hdiv : n / b < n := Nat.div_lt_self hn (by omega)
      simp only [digitsAux, if_neg hne, fromDigits]
      rw [ih (n / b) (by omega)]
      exact Nat.mod_add_div n b

theorem fromDigits_toDigits (b : Nat) (hb : 2 ≤ b) (n : Nat) :
    fromDigits b (toDigits b n) = n :=
  fromDigits_digitsAux b hb n n (Nat.le_refl n)

theorem toDigits_unfold (b : Nat) (hb : 2 ≤ b) (n : Nat) (hn : n ≠ 0) :
    toDigits b n = n % b :: toDigits b (n / b) := by
  obtain ⟨m, rfl⟩ : ∃ m, n = m + 1 := ⟨n - 1, by omega⟩
  show digitsAux b (m + 1) (m + 1) = _
  simp only [digitsAux, if_neg hn]
  have hdiv : (m + 1) / b ≤ m := by
    have := Nat.div_lt_self (show 0 < m + 1 by omega) (show 1 < b by omega)
    omega
  exact congrArg _ (digitsAux_congr b hb m ((m + 1) / b) ((m + 1) / b) hdiv (Nat.le_refl _))

theorem toDigits_fromDigits (b : Nat) (hb : 2 ≤ b) :
    ∀ ds, (∀ d ∈ ds, d < b) → ds.getLast? ≠ some 0 →
      toDigits b (fromDigits b ds) = ds := by
  intro ds
  induction ds with
  | nil => intro _ _; simp [fromDigits, toDigits, digitsAux]
  | cons d ds ih =>
    intro hlt hlast
    have hd : d < b := hlt d (List.mem_cons_self d ds)
    rcases ds with _ | ⟨d', ds'⟩
    · have hdne : d ≠ 0 := by
        intro h; apply hlast; simp [h]
      have hfd : fromDigits b [d] = d := by simp [fromDigits]
      rw [show fromDigits b [d] = d from hfd,
        toDigits_unfold b hb d hdne, Nat.mod_eq_of_lt hd, Nat.div_eq_of_lt hd]
      simp [toDigits, digitsAux_zero]
    · have hlast' : (d' :: ds').getLast? ≠ some 0 := by
        simpa [List.getLast?_cons_cons] using hlast
      have hr := ih (fun x hx => hlt x (List.mem_cons_of_mem d hx)) hlast'
      have hrne : fromDigits b (d' :: ds') ≠ 0 := by
        intro h0
        rw [h0] at hr
        simp [toDigits, digitsAux_zero] at hr
      obtain ⟨r, hrdef⟩ : ∃ r, fromDigits b (d' :: ds') = r := ⟨_, rfl⟩
      rw [hrdef] at hr hrne
      have hfd : fromDigits b (d :: d' :: ds') = d + b * r := by
        show d + b * fromDigits b (d' :: ds') = d + b * r
        rw [hrdef]
      have hmne : d + b * r ≠ 0 := by
        have h1 : 1 ≤ r := Nat.pos_iff_ne_zero.mpr hrne
        have h2 : b ≤ b * r := Nat.le_mul_of_pos_right b (by omega)
        omega
      have hmod : (d + b * r) % b = d := by
        rw [Nat.add_mul_mod_self_left, Nat.mod_eq_of_lt hd]
      have hdivr : (d + b * r) / b = r := by
        rw [Nat.add_mul_div_left d r (by omega), Nat.div_eq_of_lt hd]; omega
      rw [hfd, toDigits_unfold b hb _ hmne, hmod, hdivr, hr]

theorem digitsAux_lt (b : Nat) (hb : 2 ≤ b) :
    ∀ fuel n, ∀ d ∈ digitsAux b fuel n, d < b := by
  intro fuel
  induction fuel with
  | zero => intro n d hd; simp [digitsAux] at hd
  | succ f ih =>
    intro n d hd
    by_cases hn : n = 0
    · subst hn; simp [digitsAux_zero] at hd
    · simp only [digitsAux, if_neg hn, List.mem_cons] at hd
      rcases hd with hd | hd
      · subst hd; exact Nat.mod_lt n (by omega)
      · exact ih (n / b) d hd

theorem toDigits_getLast_ne_zero (b : Nat) (hb : 2 ≤ b) :
    ∀ n, n ≠ 0 → (toDigits b n).getLast? ≠ some 0 := by
  intro n
  induction n using Nat.strong_induction_on with
  | _ n ih =>
    intro hne
    rw [toDigits_unfold b hb n hne]
    by_cases hq : n / b = 0
    · rw [hq]
      have hlt : n < b := by
        by_contra hge
        push_neg at hge
        have : 1 ≤ n / b := (Nat.one_le_div_iff (by omega)).mpr hge
        omega
      rw [Nat.mod_eq_of_lt hlt]
      simp [toDigits, digitsAux_zero, hne]
    · have hdiv : n / b < n := Nat.div_lt_self (by omega) (by omega)
      have htail := ih (n / b) hdiv hq
      rw [toDigits_unfold b hb _ hq] at htail ⊢
      rw [List.getLast?_cons_cons]
      exact htail

theorem fromDigits_ne_zero (b : Nat) (hb : 2 ≤ b) (ds : List Nat)
    (hlt : ∀ d ∈ ds, d < b) (hnil : ds ≠ []) (hlast : ds.getLast? ≠ some 0) :
    fromDigits b ds ≠ 0 := by
  intro h0
  have h := toDigits_fromDigits b hb ds hlt hlast
  rw [h0] at h
  simp only [toDigits, digitsAux_zero] at h
  exact hnil h.symm

/-! ## The multiformats baseX codec (used for base36 and base58btc)

Model of the base-x big-integer algorithm used by the multiformats
library for the bases that are not bitwise: each leading zero byte maps to
one leading copy of the first alphabet character, and the remaining bytes,
read as a big-endian big integer, are written out in the given base. -/

/-- Byte strings, each entry intended to lie in `0..255`. -/
abbrev Bytes := List Nat

/-- Parse a character string into digit values of the given alphabet;
fails on any character outside the alphabet. -/
def charsToDigits (alpha : List Char) : List Char → Option (List Nat)
  | [] => some []
  | c :: cs =>
    match alpha.findIdx? (fun a => a = c), charsToDigits alpha cs with
    | some d, some ds => some (d :: ds)
    | _, _ => none

/-- baseX encoding of a byte string over the given alphabet. -/
def baseXEncode (alpha : List Char) (bs : Bytes) : List Char :=
  List.replicate (bs.takeWhile (fun x => x = 0)).length (alpha.getD 0 ' ')
    ++ (toDigits alpha.length (fromDigits 256 bs.reverse)).reverse.map
        (fun d => alpha.getD d ' ')

/-- baseX decoding over the given alphabet; fails on characters outside
the alphabet. -/
def baseXDecode (alpha : List Char) (cs : List Char) : Option Bytes :=
  (charsToDigits alpha cs).map (fun ds =>
    List.replicate (ds.takeWhile (fun d => d = 0)).length 0
      ++ (toDigits 256 (fromDigits alpha.length ds.reverse)).reverse)

theorem charsToDigits_map (alpha : List Char) :
    ∀ ds : List Nat,
      (∀ d ∈ ds, alpha.findIdx? (fun a => a = alpha.getD d ' ') = some d) →
      charsToDigits alpha (ds.map (fun d => alpha.getD d ' ')) = some ds := by
  intro ds
  induction ds with
  | nil => intro _; rfl
  | cons d ds ih =>
    intro h
    have hd := h d (List.mem_cons_self d ds)
    have ht := ih (fun x hx => h x (List.mem_cons_of_mem d hx))
    simp only [List.map_cons, charsToDigits, hd, ht]

theorem takeWhile_eq_nil_of_head (p : Nat → Bool) :
    ∀ l : List Nat, (∀ x, l.head? = some x → p x = false) →
      l.takeWhile p = [] := by
  intro l h
  cases l with
  | nil => rfl
  | cons a t =>
    have := h a rfl
    simp [List.takeWhile, this]

/-- Round trip of the baseX codec on byte strings with a nonzero leading
byte (the only shape this development ever encodes: CID byte strings start
with the version byte 1, and multihash byte strings are re-encoded only as
big integers). -/
theorem baseXDecode_baseXEncode (alpha : List Char) (hB : 2 ≤ alpha.length)
    (hinv : ∀ d, d < alpha.length →
      alpha.findIdx? (fun a => a = alpha.getD d ' ') = some d)
    (b0 : Nat) (bt : Bytes) (hb0 : b0 ≠ 0)
    (hlt : ∀ x ∈ b0 :: bt, x < 256) :
    baseXDecode alpha (baseXEncode alpha (b0 :: bt)) = some (b0 :: bt) := by
  have hzeros : (b0 :: bt).takeWhile (fun x => x = 0) = [] := by
    apply takeWhile_eq_nil_of_head
    intro x hx
    simp only [List.head?_cons, Option.some_inj] at hx
    subst hx
    simp [hb0]
  have hlast : (b0 :: bt).reverse.getLast? ≠ some 0 := by
    rw [List.getLast?_reverse]
    simp [hb0]
  have hltrev : ∀ x ∈ (b0 :: bt).reverse, x < 256 := by
    intro x hx
    exact hlt x (List.mem_reverse.mp hx)
  obtain ⟨n, hn⟩ : ∃ n, fromDigits 256 (b0 :: bt).reverse = n := ⟨_, rfl⟩
  have hnne : n ≠ 0 := by
    rw [← hn]
    exact fromDigits_ne_zero 256 (by omega) _ hltrev (by simp) hlast
  have hback : toDigits 256 n = (b0 :: bt).reverse := by
    rw [← hn]
    exact toDigits_fromDigits 256 (by omega) _ hltrev hlast
  have hdlt : ∀ d ∈ toDigits alpha.length n, d < alpha.length :=
    fun d hd => digitsAux_lt alpha.length hB n n d hd
  have hdlast : (toDigits alpha.length n).getLast? ≠ some 0 :=
    toDigits_getLast_ne_zero alpha.length hB n hnne
  have hdrevlt : ∀ d ∈ (toDigits alpha.length n).reverse, d < alpha.length :=
    fun d hd => hdlt d (List.mem_reverse.mp hd)
  unfold baseXEncode baseXDecode
  rw [hzeros, hn]
  simp only [List.length_nil, List.replicate, List.nil_append]
  rw [charsToDigits_map alpha _ (fun d hd => hinv d (hdrevlt d hd))]
  simp only [Option.map_some']
  have hheadrev : ((toDigits alpha.length n).reverse).takeWhile (fun d => d = 0) = [] := by
    apply takeWhile_eq_nil_of_head
    intro x hx
    rw [List.head?_reverse] at hx
    have : x ≠ 0 := by
      intro h0
      subst h0
      exact hdlast hx
    simp [this]
  rw [hheadrev, List.reverse_reverse,
    fromDigits_toDigits alpha.length hB n, hback, List.reverse_reverse]
  simp

/-- The multibase base36 (lowercase) alphabet. -/
def alpha36 : List Char := "0123456789abcdefghijklmnopqrstuvwxyz".data

/-- The base58btc alphabet. -/
def alpha58 : List Char :=
  "123456789ABCDEFGHJKLMNPQRSTUVWXYZabcdefghijkmnopqrstuvwxyz".data

theorem alpha36_inv :
    ∀ d, d < alpha36.length →
      alpha36.findIdx? (fun a => a = alpha36.getD d ' ') = some d := by
  decide

/-! ## Varints, multihashes, CIDs, libp2p public keys and PeerIds

Models of the external multiformats and libp2p primitives the repository
composes in src/lib/peer-id.ts and src/lib/ipns-machine.tsx. -/

/-- Decode an unsigned LEB128 varint from the front of a byte string,
returning its value and the remaining bytes. -/
def varintDecodeAux : List Nat → Nat → Nat → Option (Nat × List Nat)
  | [], _, _ => none
  | b :: rest, shift, acc =>
    if b < 128 then some (acc + b * 2 ^ shift, rest)
    else varintDecodeAux rest (shift + 7) (acc + b % 128 * 2 ^ shift)

def varintDecode (bs : Bytes) : Option (Nat × Bytes) := varintDecodeAux bs 0 0

/-- Encode an unsigned LEB128 varint (fuelled so the kernel can evaluate
it; `n` itself is always enough fuel since `n / 128` shrinks). -/
def varintEncodeAux : Nat → Nat → List Nat
  | 0, _ => []
  | fuel + 1, n => if n < 128 then [n] else (n % 128 + 128) :: varintEncodeAux fuel (n / 128)

def varintEncode (n : Nat) : Bytes := varintEncodeAux (n + 1) n

theorem varintDecode_small (b : Nat) (hb : b < 128) (rest : Bytes) :
    varintDecode (b :: rest) = some (b, rest) := by
  simp [varintDecode, varintDecodeAux, hb]

/-- Decode multihash bytes into the hash code and the digest, requiring
the digest length to match the declared length (the multiformats
Digest.decode behaviour). -/
def decodeMultihash (bs : Bytes) : Option (Nat × Bytes) := do
  let (code, r1) ← varintDecode bs
  let (len, digest) ← varintDecode r1
  if digest.length = len then some (code, digest) else none

/-- Encode a multihash from a hash code and digest bytes. -/
def encodeMultihash (code : Nat) (digest : Bytes) : Bytes :=
  varintEncode code ++ varintEncode digest.length ++ digest

/-- An Ed25519 public key, as its 32 raw bytes.  All keys the repository
handles are Ed25519 (its keypair type is Ed25519PrivateKey). -/
structure PublicKey where
  bytes : Bytes
deriving DecidableEq

/-- A libp2p private key as the machine context holds it: key type tag
plus the derived public key (the only parts of the external object the
repository reads). -/
structure PrivateKey where
  keyType : String
  publicKey : PublicKey
deriving DecidableEq

/-- The libp2p protobuf wrapping of an Ed25519 public key: field 1
(Type) = 1 (Ed25519), field 2 (Data) = the 32 raw key bytes. -/
def publicKeyToProtobuf (pk : PublicKey) : Bytes :=
  [8, 1, 18, 32] ++ pk.bytes

/-- Inverse of `publicKeyToProtobuf` on the encodings the repository
produces (Ed25519, exactly 32 data bytes). -/
def publicKeyFromProtobuf (bs : Bytes) : Option PublicKey :=
  match bs with
  | 8 :: 1 :: 18 :: 32 :: rest => if rest.length = 32 then some ⟨rest⟩ else none
  | _ => none

/-- Model of the external @libp2p/crypto publicKeyFromRaw, restricted to
the Ed25519 raw keys (32 bytes) that IPNS records embed. -/
def publicKeyFromRaw (bs : Bytes) : Option PublicKey :=
  if bs.length = 32 then some ⟨bs⟩ else none

/-- A libp2p PeerId: its multihash, and the public key when it can be
recovered from an identity multihash. -/
structure PeerId where
  multihash : Bytes
  publicKey : Option PublicKey
deriving DecidableEq

/-- Model of @libp2p/peer-id peerIdFromMultihash: accepts an identity
multihash whose digest is a valid public key protobuf, or a sha2-256
multihash (which carries no recoverable public key). -/
def peerIdFromMultihash (mh : Bytes) : Option PeerId :=
  match decodeMultihash mh with
  | none => none
  | some (code, digest) =>
    if code = 0 then (publicKeyFromProtobuf digest).map (fun pk => ⟨mh, some pk⟩)
    else if code = 18 then some ⟨mh, none⟩
    else none

/-- Model of the external @libp2p/peer-id peerIdFromString exactly as the
machine calls it, with NO multibase decoder argument: only strings whose
first character is the digit 1 or the letter Q are accepted (base58btc
multihash); every other string makes the library throw.  This behaviour
is also documented inside the repository itself: the wrapper
getPeerIdFromString in src/lib/peer-id.ts exists precisely to route
non-1/Q strings through CID.parse instead. -/
def peerIdFromString (s : String) : Option PeerId :=
  match s.data.head? with
  | some c =>
    if c = '1' ∨ c = 'Q' then baseXDecode alpha58 s.data >>= peerIdFromMultihash
    else none
  | none => none

/-- Model of @libp2p/peer-id peerIdFromPublicKey for Ed25519 keys: the
PeerId whose multihash is the identity multihash of the protobuf wrapped
key. -/
def peerIdFromPublicKey (pk : PublicKey) : PeerId :=
  ⟨encodeMultihash 0 (publicKeyToProtobuf pk), some pk⟩

/-- A CID (content identifier). -/
structure CID where
  version : Nat
  codec : Nat
  multihash : Bytes
deriving DecidableEq

def cidToBytes (c : CID) : Bytes :=
  varintEncode c.version ++ varintEncode c.codec ++ c.multihash

/-- Decode CIDv1 binary: varint version (must be 1), varint codec, then a
valid multihash. -/
def cidFromBytes (bs : Bytes) : Option CID := do
  let (v, r1) ← varintDecode bs
  if v = 1 then
    let (codec, mh) ← varintDecode r1
    let _ ← decodeMultihash mh
    some ⟨1, codec, mh⟩
  else none

/-- RFC 4648 base32 (lowercase, no padding) decoding, as the multiformats
base32 codec uses for the multibase prefix b; the trailing leftover bits
must be zero. -/
def base32DecodeAux : List Char → Nat → Nat → Bytes → Option Bytes
  | [], acc, bits, out => if bits < 5 ∧ acc = 0 then some out.reverse else none
  | c :: cs, acc, bits, out =>
    match "abcdefghijklmnopqrstuvwxyz234567".data.findIdx? (fun a => a = c) with
    | none => none
    | some v =>
      let acc' := acc * 32 + v
      let bits' := bits + 5
      if bits' ≥ 8 then
        base32DecodeAux cs (acc' % 2 ^ (bits' - 8)) (bits' - 8)
          (acc' / 2 ^ (bits' - 8) :: out)
      else base32DecodeAux cs acc' bits' out

def base32Decode (cs : List Char) : Option Bytes := base32DecodeAux cs 0 0 []

/-- Model of multiformats CID.parse: a string starting with Q is a CIDv0
(base58btc sha2-256 multihash); otherwise the first character selects a
multibase codec (z base58btc, k base36, b base32) over CIDv1 bytes. -/
def cidParse (s : String) : Option CID :=
  match s.data with
  | 'Q' :: _ => do
    let mh ← baseXDecode alpha58 s.data
    let (code, _) ← decodeMultihash mh
    if code = 18 then some ⟨0, 112, mh⟩ else none
  | 'z' :: rest => baseXDecode alpha58 rest >>= cidFromBytes
  | 'k' :: rest => baseXDecode alpha36 rest >>= cidFromBytes
  | 'b' :: rest => base32Decode rest >>= cidFromBytes
  | _ => none

/-- Model of @libp2p/peer-id peerIdFromCID: requires a libp2p-key CID
(codec 0x72 = 114). -/
def peerIdFromCID (c : CID) : Option PeerId :=
  if c.codec = 114 then peerIdFromMultihash c.multihash else none

/-- CID.toString(base36): multibase prefix k followed by the base36
encoding of the CID bytes. -/
def cidToStringBase36 (c : CID) : String :=
  String.mk ('k' :: baseXEncode alpha36 (cidToBytes c))

/-- PublicKey.toCID() / PeerId.toCID(): the CIDv1 with the libp2p-key
codec over the identity multihash of the protobuf wrapped key. -/
def publicKeyToCID (pk : PublicKey) : CID :=
  ⟨1, 114, (peerIdFromPublicKey pk).multihash⟩

/-! ## src/lib/peer-id.ts -/

/-- getIPNSNameFromPublicKey:
peerIdFromPublicKey(publicKey).toCID().toString(base36). -/
def getIPNSNameFromPublicKey (pk : PublicKey) : String :=
  cidToStringBase36 (publicKeyToCID pk)

/-- getIPNSNameFromKeypair: empty string when no keypair, otherwise
peerIdFromPrivateKey(privateKey).toCID().toString(base36), where the
PeerId derived from a private key is the PeerId of its public key. -/
def getIPNSNameFromKeypair : Option PrivateKey → String
  | none => ""
  | some kp => getIPNSNameFromPublicKey kp.publicKey

/-- getPeerIdFromString (the Identity Resolver of the spec): a string
whose first character is 1 or Q is a base58btc multihash, anything else
is parsed as a CID (the base36 route) and converted with peerIdFromCID. -/
def getPeerIdFromString (s : String) : Option PeerId :=
  match s.data.head? with
  | some c =>
    if c = '1' ∨ c = 'Q' then peerIdFromString s
    else cidParse s >>= peerIdFromCID
  | none => cidParse s >>= peerIdFromCID

/-! ## JavaScript value model

UPDATE_FORM writes the event value as a string when the field is the
value field and as Number(event.value) otherwise,
under a computed key, so formData is modelled as a JavaScript object:
an insertion-ordered association list of string keys to values that are
either strings or numbers, where a number can be NaN. -/

inductive JSNum
  | nan
  | num (q : Rat)
deriving DecidableEq

inductive JSValue
  | str (s : String)
  | num (n : JSNum)
deriving DecidableEq

abbrev JSObject := List (String × JSValue)

/-- JavaScript object property write (spread followed by a computed key):
an existing key keeps its position and gets the new value, a fresh key is
appended. -/
def objSet : JSObject → String → JSValue → JSObject
  | [], k, v => [(k, v)]
  | (k', v') :: rest, k, v =>
    if k' = k then (k, v) :: rest else (k', v') :: objSet rest k v

def objGet : JSObject → String → Option JSValue
  | [], _ => none
  | (k', v') :: rest, k => if k' = k then some v' else objGet rest k

/-- JavaScript whitespace for this model. -/
def jsIsWhitespace (c : Char) : Bool :=
  c = ' ' ∨ c = '\t' ∨ c = '\n' ∨ c = '\r'

/-- Model of String.prototype.trim(). -/
def jsTrim (s : String) : String :=
  String.mk (((s.data.dropWhile jsIsWhitespace).reverse.dropWhile jsIsWhitespace).reverse)

def decDigitsVal (l : List Char) : Nat :=
  l.foldl (fun a c => a * 10 + (c.toNat - 48)) 0

/-- Model of the JavaScript Number() string coercion on the fragment the
form uses: optional whitespace, optional sign, decimal digits with an
optional fractional part.  A blank string coerces to 0 and anything
outside this fragment is NaN. -/
def jsNumber (s : String) : JSNum :=
  let t := ((s.data.dropWhile jsIsWhitespace).reverse.dropWhile jsIsWhitespace).reverse
  if t.isEmpty then .num 0
  else
    let (sg, r) : Rat × List Char :=
      match t with
      | '-' :: r => (-1, r)
      | '+' :: r => (1, r)
      | r => (1, r)
    let ip := r.takeWhile (fun c => c.isDigit)
    let r2 := r.dropWhile (fun c => c.isDigit)
    match r2 with
    | [] => if ip.isEmpty then .nan else .num (sg * (decDigitsVal ip : Rat))
    | '.' :: fr =>
      if fr.all (fun c => c.isDigit) ∧ ¬(ip.isEmpty ∧ fr.isEmpty) then
        .num (sg * ((decDigitsVal ip : Rat) + (decDigitsVal fr : Rat) / (10 : Rat) ^ fr.length))
      else .nan
    | _ => .nan

/-! ## Records, files and the promise actors of the machine

An IPNSRecord is modelled by the two fields the orchestration logic
reads: the optional embedded public key bytes and the signed data bytes.
Each fromPromise actor of the machine becomes a function from its input
snapshot and the outcomes of the external calls it makes to the Except
value the promise settles with. -/

structure IPNSRecord where
  pubKey : Option Bytes
  data : Bytes
deriving DecidableEq

structure JSFile where
  name : String
  content : Bytes
deriving DecidableEq

/-- fetchRecord actor: parse the input name with the bare libp2p
peerIdFromString (throwing Invalid IPNS name when it fails), then call
ipns.resolve; `resolve` is the outcome of that external call.  A missing
ipns handle (failed init) makes the property access throw. -/
def fetchRecordActor (name : String) (ipns : Option Unit)
    (resolve : Except String IPNSRecord) : Except String IPNSRecord :=
  match peerIdFromString name with
  | none => .error "Invalid IPNS name"
  | some _ =>
    match ipns with
    | none => .error "TypeError: ipns is undefined"
    | some _ => resolve

/-- createRecord actor: CID.parse(formData.value) (throwing on a bad
value), then ipns.publish; `publish` is the outcome of that external
call. -/
def createRecordActor (formData : JSObject) (ipns : Option Unit)
    (publish : Except String IPNSRecord) : Except String IPNSRecord :=
  match objGet formData "value" with
  | some (.str s) =>
    match cidParse s with
    | none => .error "Invalid CID"
    | some _ =>
      match ipns with
      | none => .error "TypeError: ipns is undefined"
      | some _ => publish
  | _ => .error "Invalid CID"

/-- Error message the external peerIdFromString throws for strings that
do not start with 1 or Q; the importRecord catch block re-throws it
unchanged because it does not contain the marker Non-base36. -/
def multibaseDecoderError : String :=
  "Please pass a multibase decoder for strings that do not start with 1 or Q"

/-- importRecord actor.  `unmarshal` is the outcome of the external
unmarshalIPNSRecord call on the file bytes, `embeddedValid` the outcome
of ipnsValidator(record.pubKey, record.data), and `filenameValid` the
outcome of validate(pubKey, buffer) in the filename branch. -/
def importRecordActor (file : Option JSFile)
    (unmarshal : Except String IPNSRecord)
    (embeddedValid : Except String Unit)
    (filenameValid : Except String Unit) : Except String (IPNSRecord × String) :=
  match file with
  | none => .error "No file provided"
  | some file =>
    let ipnsName := (file.name.splitOn ".").headD ""
    match unmarshal with
    | .error e => .error e
    | .ok record =>
      match record.pubKey with
      | some raw =>
        match embeddedValid with
        | .error e => .error e
        | .ok _ =>
          match publicKeyFromRaw raw with
          | none => .error "invalid raw public key"
          | some pk => .ok (record, cidToStringBase36 (publicKeyToCID pk))
      | none =>
        match peerIdFromString ipnsName with
        | none => .error multibaseDecoderError
        | some pid =>
          match pid.publicKey with
          | none => .error ("Couldn\x27t infer IPNS name from file: " ++ file.name)
          | some _ =>
            match filenameValid with
            | .error e => .error e
            | .ok _ => .ok (record, ipnsName)

/-- republishRecord actor: checks its three inputs for JavaScript
truthiness before touching the network; the second component records
whether the external ipns.republishRecord call was made, `net` being its
outcome when it is. -/
def republishRecordActor (record : Option IPNSRecord) (name : String)
    (ipns : Option Unit) (net : Except String Unit) : Except String Unit × Bool :=
  if record = none ∨ name = "" ∨ ipns = none then
    (.error "Missing required parameters", false)
  else (net, true)

/-- importPrivateKey actor: `decoded` is the outcome of the external
base64 + protobuf private key decoding; any failure, and any key type
other than Ed25519, is converted by the catch block into the single
Invalid private key error. -/
def importPrivateKeyActor (decoded : Except String PrivateKey) :
    Except String PrivateKey :=
  match decoded with
  | .error _ => .error "Invalid private key"
  | .ok k => if k.keyType = "Ed25519" then .ok k else .error "Invalid private key"

/-! ## The machine -/

inductive Mode
  | inspect
  | create
deriving DecidableEq

/-- The machine context of src/lib/ipns-machine.tsx.  Errors are kept as
their message strings; the external Helia and IPNS handles are kept as
presence markers, which is all the orchestration logic reads of them. -/
structure Context where
  error : Option String
  nameValidationError : Bool
  nameInput : String
  name : String
  record : Option IPNSRecord
  keypair : Option PrivateKey
  privateKeyInput : String
  privateKeyError : Option String
  importDialogOpen : Bool
  formData : JSObject
  fetchingRecord : Bool
  publishingRecord : Bool
  publishSuccess : Bool
  heliaInstance : Option Unit
  ipns : Option Unit
deriving DecidableEq

/-- The machine states.  A state that invokes a promise actor carries the
input snapshot xstate computes for the invocation when the state is
entered (importingRecord takes its input from the triggering event, the
others from the context at entry). -/
inductive MState
  | init
  | inspect
  | verifyAndFetch (name : String) (ipns : Option Unit)
  | create
  | generatingKey
  | creatingRecord (keypair : Option PrivateKey) (formData : JSObject) (ipns : Option Unit)
  | publishingRecord (keypair : Option PrivateKey) (formData : JSObject) (ipns : Option Unit)
  | importingRecord (file : Option JSFile)
  | importingPrivateKey (value : String)
  | republishingRecord (record : Option IPNSRecord) (name : String) (ipns : Option Unit)
deriving DecidableEq

/-- User events of the machine, plus one settlement event per invoked
promise actor.  A settlement event carries the outcomes of the external
calls the actor makes; the actor functions above turn those into the
value or error the promise settles with. -/
inductive Event
  | inspectName
  | updateMode (value : Mode)
  | updateForm (field : String) (value : String)
  | updateName (value : String) (validate : Bool)
  | generateNewKey
  | createRecordEv
  | publishRecordEv
  | importRecordEv (file : Option JSFile)
  | importPrivateKeyEv (value : String)
  | updatePrivateKeyInput (value : String)
  | openImportDialog
  | closeImportDialog
  | initSettled (res : Except String Unit)
  | keyGenSettled (res : Except String PrivateKey)
  | fetchSettled (resolve : Except String IPNSRecord)
  | createSettled (publish : Except String IPNSRecord)
  | importSettled (unmarshal : Except String IPNSRecord)
      (embeddedValid : Except String Unit) (filenameValid : Except String Unit)
  | importKeySettled (decoded : Except String PrivateKey)
  | republishSettled (net : Except String Unit)

structure Machine where
  state : MState
  ctx : Context
deriving DecidableEq

/-- The UPDATE_NAME validation action: without the validate flag it
clears the error; with it, it reports an error iff the bare libp2p
peerIdFromString (imported directly in src/lib/ipns-machine.tsx) throws
on the value. -/
def validateName (validate : Bool) (value : String) : Bool :=
  if !validate then false else (peerIdFromString value).isNone

/-- One synchronous transition of the machine.  The first five events are
the machine-wide (root) handlers, which no state overrides and which have
no target, so they apply in every state without entering or exiting
anything.  The per-state behaviour follows the transition tables of
src/lib/ipns-machine.tsx with the xstate v5 action order (exit actions,
then transition actions, then entry actions of the entered state); a
settlement event is only meaningful in the state that invoked the actor
and is discarded anywhere else, and every other unhandled event is
discarded as well. -/
def step (m : Machine) (e : Event) : Machine :=
  match e with
  | .updateForm field value =>
    let v := if field = "value" then JSValue.str value else JSValue.num (jsNumber value)
    { m with ctx := { m.ctx with formData := objSet m.ctx.formData field v } }
  | .updateName value validate =>
    { m with ctx :=
      { m.ctx with nameInput := value, nameValidationError := validateName validate value } }
  | .updatePrivateKeyInput value =>
    { m with ctx := { m.ctx with privateKeyInput := value, privateKeyError := none } }
  | .openImportDialog =>
    { m with ctx := { m.ctx with importDialogOpen := true, privateKeyError := none } }
  | .closeImportDialog =>
    { m with ctx := { m.ctx with importDialogOpen := false } }
  | e =>
    match m.state, e with
    | .init, .initSettled res =>
      match res with
      | .ok _ => ⟨.inspect, { m.ctx with ipns := some (), heliaInstance := some () }⟩
      | .error msg => ⟨.inspect, { m.ctx with error := some msg }⟩
    | .inspect, .inspectName =>
      ⟨.verifyAndFetch m.ctx.nameInput m.ctx.ipns,
        { m.ctx with error := none, fetchingRecord := true }⟩
    | .inspect, .updateMode _ =>
      let keep := if m.ctx.name = getIPNSNameFromKeypair m.ctx.keypair
                  then m.ctx.record else none
      ⟨.create, { m.ctx with
                  nameInput := "", nameValidationError := false,
                  record := keep, publishSuccess := false }⟩
    | .inspect, .importRecordEv file =>
      ⟨.importingRecord file,
        { m.ctx with
          nameInput := "", nameValidationError := false,
          record := none, publishSuccess := false }⟩
    | .inspect, .publishRecordEv =>
      if m.ctx.record.isSome then
        ⟨.republishingRecord m.ctx.record m.ctx.name m.ctx.ipns,
          { m.ctx with publishingRecord := true }⟩
      else m
    | .verifyAndFetch nm ip, .fetchSettled resolve =>
      match fetchRecordActor nm ip resolve with
      | .ok rec =>
        ⟨.inspect, { m.ctx with
                     fetchingRecord := false,
                     record := some rec, name := m.ctx.nameInput }⟩
      | .error msg =>
        ⟨.inspect, { m.ctx with fetchingRecord := false, error := some msg }⟩
    | .create, .createRecordEv =>
      ⟨.creatingRecord m.ctx.keypair m.ctx.formData m.ctx.ipns, m.ctx⟩
    | .create, .publishRecordEv =>
      ⟨.publishingRecord m.ctx.keypair m.ctx.formData m.ctx.ipns,
        { m.ctx with publishingRecord := true }⟩
    | .create, .updateMode _ => ⟨.inspect, m.ctx⟩
    | .create, .generateNewKey =>
      ⟨.generatingKey, { m.ctx with keypair := none, record := none }⟩
    | .create, .importPrivateKeyEv _ =>
      if jsTrim m.ctx.privateKeyInput = "" then
        ⟨.create, { m.ctx with privateKeyError := some "Private key cannot be empty" }⟩
      else
        ⟨.importingPrivateKey (jsTrim m.ctx.privateKeyInput),
          { m.ctx with privateKeyError := none }⟩
    | .generatingKey, .keyGenSettled res =>
      match res with
      | .ok k =>
        ⟨.create, { m.ctx with
                    keypair := some k,
                    nameValidationError := false, publishSuccess := false }⟩
      | .error msg =>
        ⟨.create, { m.ctx with
                    error := some msg,
                    nameValidationError := false, publishSuccess := false }⟩
    | .creatingRecord _kp fd ip, .createSettled publish =>
      match createRecordActor fd ip publish with
      | .ok rec =>
        ⟨.create, { m.ctx with
                    record := some rec,
                    name := getIPNSNameFromKeypair m.ctx.keypair, error := none,
                    nameValidationError := false, publishSuccess := false }⟩
      | .error msg =>
        ⟨.create, { m.ctx with
                    error := some msg, record := none,
                    nameValidationError := false, publishSuccess := false }⟩
    | .publishingRecord _kp fd ip, .createSettled publish =>
      match createRecordActor fd ip publish with
      | .ok rec =>
        ⟨.create, { m.ctx with
                    publishingRecord := false, record := some rec,
                    error := none, nameValidationError := false, publishSuccess := false }⟩
      | .error msg =>
        ⟨.create, { m.ctx with
                    publishingRecord := false, error := some msg,
                    nameValidationError := false, publishSuccess := false }⟩
    | .importingRecord file, .importSettled u ev fv =>
      match importRecordActor file u ev fv with
      | .ok (rec, nm) =>
        ⟨.inspect, { m.ctx with record := some rec, name := nm, error := none }⟩
      | .error msg =>
        ⟨.inspect, { m.ctx with error := some msg, record := none }⟩
    | .importingPrivateKey _v, .importKeySettled decoded =>
      match importPrivateKeyActor decoded with
      | .ok k =>
        ⟨.create, { m.ctx with
                    keypair := some k, error := none,
                    privateKeyInput := "", privateKeyError := none,
                    importDialogOpen := false,
                    nameValidationError := false, publishSuccess := false }⟩
      | .error _ =>
        ⟨.create, { m.ctx with
                    privateKeyError := some "Invalid private key format",
                    nameValidationError := false, publishSuccess := false }⟩
    | .republishingRecord r nm ip, .republishSettled net =>
      match (republishRecordActor r nm ip net).1 with
      | .ok _ =>
        ⟨.inspect, { m.ctx with
                     publishingRecord := false,
                     publishSuccess := true, error := none }⟩
      | .error msg =>
        ⟨.inspect, { m.ctx with
                     publishingRecord := false,
                     error := some msg, publishSuccess := false }⟩
    | _, _ => m

def run (m : Machine) (evs : List Event) : Machine := evs.foldl step m

/-- The initial context of the machine. -/
def initialContext : Context where
  error := none
  nameValidationError := false
  nameInput := ""
  name := ""
  record := none
  keypair := none
  privateKeyInput := ""
  privateKeyError := none
  importDialogOpen := false
  formData :=
    [("value", .str "bafybeigdyrzt5sfp7udm7hu76uh7y26nf3efuylqabf3oclgtqy55fbzdi"),
     ("lifetime", .num (.num 86400000)),
     ("ttlMs", .num (.num 60000))]
  fetchingRecord := false
  publishingRecord := false
  publishSuccess := false
  heliaInstance := none
  ipns := none

def initialMachine : Machine := ⟨.init, initialContext⟩

/-! ## Concrete witnesses

A concrete Ed25519 public key, its base36 IPNS name, a concrete record
with an embedded raw public key, and a concrete base58btc peer id
string. -/

def pk0 : PublicKey := ⟨List.replicate 32 0⟩

/-- The base36 canonical IPNS name of `pk0`
(k51qzi5uqu5dg6l7sg2ssb5uefnq8g7g1d6n6j2zsio0o0k7snyb11p8myhxxc). -/
def base36Name0 : String := getIPNSNameFromPublicKey pk0

def raw7 : Bytes := List.replicate 32 7

/-- A record carrying an embedded raw public key. -/
def rec0 : IPNSRecord := ⟨some raw7, [1, 2, 3]⟩

/-- A base58btc identity multihash peer id string
(12D3KooW9pNAk8aiBuGVQtWRdbkLmo5qVL3e2h5UxbN2Nz9ttwiw): a valid input
for the bare libp2p peerIdFromString. -/
def s58 : String :=
  String.mk (baseXEncode alpha58 (encodeMultihash 0 (publicKeyToProtobuf pk0)))

/-! ## Helper lemmas about the machine -/

theorem objGet_objSet (o : JSObject) (k : String) (v : JSValue) :
    objGet (objSet o k v) k = some v := by
  induction o with
  | nil => simp [objSet, objGet]
  | cons p rest ih =>
    obtain ⟨k', v'⟩ := p
    by_cases h : k' = k
    · simp [objSet, objGet, h]
    · simp [objSet, objGet, h, ih]

/-! ## Claims -/

/-- C1: the claim says UPDATE_NAME with validate set reports an error iff
the value parses as neither of the two accepted encodings, so that every
well-formed base36 canonical name validates cleanly.  The code instead
validates with the bare libp2p peerIdFromString, which only accepts
strings starting with 1 or Q: the repository resolver
getPeerIdFromString accepts the base36 name `base36Name0`, yet in every
machine state the UPDATE_NAME action sets nameValidationError to true on
it. -/
theorem C1_updateName_validation_rejects_base36 :
    (getPeerIdFromString base36Name0).isSome = true ∧
    ∀ m : Machine,
      (step m (.updateName base36Name0 true)).ctx.nameValidationError = true := by
  refine ⟨by decide, fun m => ?_⟩
  show validateName true base36Name0 = true
  decide

/-- C7: dispatching GENERATE_NEW_KEY in create clears keypair and record
and enters generatingKey; a successful settlement stores the keypair with
the record still cleared and returns to create; a failing settlement
records the error with the keypair left unset and returns to create. -/
theorem C7_generateNewKey (ctx : Context) (k : PrivateKey) (msg : String) :
    step ⟨.create, ctx⟩ .generateNewKey =
      ⟨.generatingKey, { ctx with keypair := none, record := none }⟩ ∧
    step (step ⟨.create, ctx⟩ .generateNewKey) (.keyGenSettled (.ok k)) =
      ⟨.create, { ctx with
                  keypair := some k, record := none,
                  nameValidationError := false, publishSuccess := false }⟩ ∧
    step (step ⟨.create, ctx⟩ .generateNewKey) (.keyGenSettled (.error msg)) =
      ⟨.create, { ctx with
                  keypair := none, record := none, error := some msg,
                  nameValidationError := false, publishSuccess := false }⟩ :=
  ⟨rfl, rfl, rfl⟩

/-- C8: IMPORT_PRIVATE_KEY with a blank (trimmed) private key input stays
in create with a local privateKeyError and never launches the import
task; with a non-blank input it clears the error and enters
importingPrivateKey; and a failing import settles back into create with
the generic privateKeyError, leaving importDialogOpen and
privateKeyInput untouched. -/
theorem C8_importPrivateKey (ctx : Context) (v s' : String)
    (dec : Except String PrivateKey) :
    (jsTrim ctx.privateKeyInput = "" →
      step ⟨.create, ctx⟩ (.importPrivateKeyEv v) =
        ⟨.create, { ctx with privateKeyError := some "Private key cannot be empty" }⟩) ∧
    (¬ jsTrim ctx.privateKeyInput = "" →
      step ⟨.create, ctx⟩ (.importPrivateKeyEv v) =
        ⟨.importingPrivateKey (jsTrim ctx.privateKeyInput),
          { ctx with privateKeyError := none }⟩) ∧
    (∀ msg, importPrivateKeyActor dec = .error msg →
      step ⟨.importingPrivateKey s', ctx⟩ (.importKeySettled dec) =
        ⟨.create, { ctx with
                    privateKeyError := some "Invalid private key format",
                    nameValidationError := false, publishSuccess := false }⟩) := by
  refine ⟨fun h => ?_, fun h => ?_, fun msg h => ?_⟩
  · simp only [step]
    rw [if_pos h]
  · simp only [step]
    rw [if_neg h]
  · simp only [step]
    rw [h]

/-- C8 witness: the blank branch at the initial context, the non-blank
branch at a context holding the input abc, and a failing settlement. -/
theorem C8_importPrivateKey_witness :
    step ⟨.create, initialContext⟩ (.importPrivateKeyEv "x") =
      ⟨.create, { initialContext with
                  privateKeyError := some "Private key cannot be empty" }⟩ ∧
    step ⟨.create, { initialContext with privateKeyInput := "abc" }⟩
        (.importPrivateKeyEv "abc") =
      ⟨.importingPrivateKey "abc",
        { initialContext with privateKeyInput := "abc", privateKeyError := none }⟩ ∧
    step ⟨.importingPrivateKey "abc", initialContext⟩
        (.importKeySettled (.error "boom")) =
      ⟨.create, { initialContext with
                  privateKeyError := some "Invalid private key format",
                  nameValidationError := false, publishSuccess := false }⟩ := by
  refine ⟨?_, ?_, ?_⟩
  · exact (C8_importPrivateKey initialContext "x" "" (.error "boom")).1 (by decide)
  · have h := (C8_importPrivateKey { initialContext with privateKeyInput := "abc" }
      "abc" "" (.error "boom")).2.1 (by decide)
    simpa using h
  · exact (C8_importPrivateKey initialContext "x" "abc"
      (.error "boom")).2.2 "Invalid private key" rfl

/-- C10: UPDATE_FORM is handled at the machine root, so in every state
and for every field other than value it stores Number(value) under that
field with no validation, merging unknown fields as new entries; and a
non-numeric string coerces to NaN. -/
theorem C10_updateForm_stores_number (m : Machine) (field value : String)
    (h : ¬ field = "value") :
    step m (.updateForm field value) =
      { m with ctx :=
        { m.ctx with formData := objSet m.ctx.formData field (.num (jsNumber value)) } } ∧
    objGet (step m (.updateForm field value)).ctx.formData field =
      some (.num (jsNumber value)) ∧
    jsNumber "not-a-number" = .nan := by
  have hstep : step m (.updateForm field value) =
      { m with ctx :=
        { m.ctx with formData := objSet m.ctx.formData field (.num (jsNumber value)) } } := by
    simp only [step]
    rw [if_neg h]
  refine ⟨hstep, ?_, by decide⟩
  rw [hstep]
  exact objGet_objSet m.ctx.formData field (.num (jsNumber value))

/-- C10 witness: a field outside the declared formData shape, dispatched
in the initial (init) state, is merged with its numeric coercion. -/
theorem C10_updateForm_witness :
    objGet (step initialMachine (.updateForm "foo" "86400000")).ctx.formData "foo" =
      some (.num (jsNumber "86400000")) :=
  (C10_updateForm_stores_number initialMachine "foo" "86400000" (by decide)).2.1

/-- A run that launches a fetch for the name `s58` and then updates
nameInput to B while the fetch is in flight. -/
def c2TraceA : List Event :=
  [.initSettled (.ok ()), .updateName s58 false, .inspectName, .updateName "B" false]

/-- C2 counterexample: the record/name consistency invariant fails under
UPDATE_NAME interleaving.  After `c2TraceA` the machine is in
verifyAndFetch with invoke input `s58` (so the record the settlement
delivers was fetched under `s58`), yet when that fetch settles
successfully the context holds that record with name = B, which is
neither `s58` nor empty. -/
theorem C2_record_name_interleaving_cex :
    (run initialMachine c2TraceA).state = .verifyAndFetch s58 (some ()) ∧
    (run initialMachine (c2TraceA ++ [.fetchSettled (.ok rec0)])).state = .inspect ∧
    (run initialMachine (c2TraceA ++ [.fetchSettled (.ok rec0)])).ctx.record = some rec0 ∧
    (run initialMachine (c2TraceA ++ [.fetchSettled (.ok rec0)])).ctx.name = "B" ∧
    ¬ "B" = s58 ∧ ¬ "B" = "" := by
  refine ⟨rfl, rfl, rfl, rfl, by decide, by decide⟩

/-- C2 amended: record and name are consistent on fetch completion
provided nameInput was not changed while the fetch was in flight: when
the machine sits in verifyAndFetch with invoke input n, nameInput still
equals n, and the fetch settles successfully, the context ends with the
fetched record and name = n, the identity it was fetched under. -/
theorem C2_fetch_name_consistent_no_interleaving (ctx : Context) (n : String)
    (ip : Option Unit) (resolve : Except String IPNSRecord) (rec : IPNSRecord)
    (hn : ctx.nameInput = n) (hr : fetchRecordActor n ip resolve = .ok rec) :
    step ⟨.verifyAndFetch n ip, ctx⟩ (.fetchSettled resolve) =
      ⟨.inspect, { ctx with fetchingRecord := false, record := some rec, name := n }⟩ := by
  simp only [step]
  rw [hr, hn]

/-- C2 amended witness: a fetch for `s58` settling with no intervening
UPDATE_NAME. -/
theorem C2_fetch_name_consistent_witness :
    step ⟨.verifyAndFetch s58 (some ()), { initialContext with nameInput := s58 }⟩
        (.fetchSettled (.ok rec0)) =
      ⟨.inspect, { initialContext with
                   nameInput := s58, fetchingRecord := false,
                   record := some rec0, name := s58 }⟩ :=
  C2_fetch_name_consistent_no_interleaving
    { initialContext with nameInput := s58 } s58 (some ()) (.ok rec0) rec0 rfl rfl

/-- C4: when the creatingRecord actor settles successfully the machine
returns to create holding the new record, with name derived from the
context keypair, error cleared and publishSuccess false; when it fails
the machine returns to create with the record cleared and the error
recorded. -/
theorem C4_creatingRecord_outcomes (ctx : Context) (kp : Option PrivateKey)
    (fd : JSObject) (ip : Option Unit) (publish : Except String IPNSRecord) :
    (∀ rec, createRecordActor fd ip publish = .ok rec →
      step ⟨.creatingRecord kp fd ip, ctx⟩ (.createSettled publish) =
        ⟨.create, { ctx with
                    record := some rec, name := getIPNSNameFromKeypair ctx.keypair,
                    error := none, nameValidationError := false,
                    publishSuccess := false }⟩) ∧
    (∀ msg, createRecordActor fd ip publish = .error msg →
      step ⟨.creatingRecord kp fd ip, ctx⟩ (.createSettled publish) =
        ⟨.create, { ctx with
                    error := some msg, record := none,
                    nameValidationError := false, publishSuccess := false }⟩) := by
  constructor <;> intro x h <;> simp only [step] <;> rw [h]

/-- A concrete Ed25519 keypair whose public key is `pk0`. -/
def kp0 : PrivateKey := ⟨"Ed25519", pk0⟩

/-- A formData object whose value field holds a parseable CID string. -/
def fd0 : JSObject := [("value", .str base36Name0)]

/-- C4 witness: a successful creation (with a parseable CID value and a
keypair, so the name becomes the base36 name of that keypair) and a failing
creation (empty formData, so CID.parse throws). -/
theorem C4_creatingRecord_witness :
    step ⟨.creatingRecord (some kp0) fd0 (some ()),
          { initialContext with keypair := some kp0 }⟩
        (.createSettled (.ok rec0)) =
      ⟨.create, { initialContext with
                  keypair := some kp0, record := some rec0, name := base36Name0,
                  error := none, nameValidationError := false,
                  publishSuccess := false }⟩ ∧
    step ⟨.creatingRecord none [] (some ()), initialContext⟩
        (.createSettled (.ok rec0)) =
      ⟨.create, { initialContext with
                  error := some "Invalid CID", record := none,
                  nameValidationError := false, publishSuccess := false }⟩ := by
  constructor
  · exact (C4_creatingRecord_outcomes { initialContext with keypair := some kp0 }
      (some kp0) fd0 (some ()) (.ok rec0)).1 rec0 rfl
  · exact (C4_creatingRecord_outcomes initialContext none [] (some ())
      (.ok rec0)).2 "Invalid CID" rfl

/-- C5: for an import whose decoded record carries an embedded public
key, a failing unmarshal or a failing signature validation against that
key fails the whole import (back to inspect, error set, record cleared),
and a successful validation stores the record under the name derived
from the embedded key, ignoring the filename. -/
theorem C5_importRecord_embedded_key (ctx : Context) (f : JSFile) (raw : Bytes)
    (rec : IPNSRecord) (ev fv : Except String Unit) (hpk : rec.pubKey = some raw) :
    (∀ msg (u : Except String IPNSRecord), u = .error msg →
      step ⟨.importingRecord (some f), ctx⟩ (.importSettled u ev fv) =
        ⟨.inspect, { ctx with error := some msg, record := none }⟩) ∧
    (∀ msg, ev = .error msg →
      step ⟨.importingRecord (some f), ctx⟩ (.importSettled (.ok rec) ev fv) =
        ⟨.inspect, { ctx with error := some msg, record := none }⟩) ∧
    (∀ pk, ev = .ok () → publicKeyFromRaw raw = some pk →
      step ⟨.importingRecord (some f), ctx⟩ (.importSettled (.ok rec) ev fv) =
        ⟨.inspect, { ctx with
                     record := some rec,
                     name := cidToStringBase36 (publicKeyToCID pk),
                     error := none }⟩) := by
  refine ⟨fun msg u h => ?_, fun msg h => ?_, fun pk h hr => ?_⟩
  · simp only [step]
    have hact : importRecordActor (some f) u ev fv = .error msg := by
      simp only [importRecordActor, h]
    rw [hact]
  · simp only [step]
    have hact : importRecordActor (some f) (.ok rec) ev fv = .error msg := by
      simp only [importRecordActor, hpk, h]
    rw [hact]
  · simp only [step]
    have hact : importRecordActor (some f) (.ok rec) ev fv =
        .ok (rec, cidToStringBase36 (publicKeyToCID pk)) := by
      simp only [importRecordActor, hpk, h, hr]
    rw [hact]

/-- C5 witness: a record embedding the raw key `raw7`, imported from a
file whose name has nothing to do with that key: failing validation
clears the record and sets the error, successful validation stores the
key-derived name. -/
theorem C5_importRecord_witness :
    step ⟨.importingRecord (some ⟨"unrelated.bin", [9]⟩), initialContext⟩
        (.importSettled (.ok rec0) (.error "invalid signature") (.ok ())) =
      ⟨.inspect, { initialContext with
                   error := some "invalid signature", record := none }⟩ ∧
    step ⟨.importingRecord (some ⟨"unrelated.bin", [9]⟩), initialContext⟩
        (.importSettled (.ok rec0) (.ok ()) (.ok ())) =
      ⟨.inspect, { initialContext with
                   record := some rec0,
                   name := cidToStringBase36 (publicKeyToCID ⟨raw7⟩),
                   error := none }⟩ := by
  constructor
  · exact (C5_importRecord_embedded_key initialContext ⟨"unrelated.bin", [9]⟩ raw7
      rec0 (.error "invalid signature") (.ok ()) rfl).2.1 "invalid signature" rfl
  · exact (C5_importRecord_embedded_key initialContext ⟨"unrelated.bin", [9]⟩ raw7
      rec0 (.ok ()) (.ok ()) rfl).2.2 ⟨raw7⟩ rfl rfl

/-- C6: a republish whose inputs are not all present (record undefined,
name empty, or no resolver client) never makes the network call, and its
settlement puts the machine back in inspect with the local precondition
error recorded and publishSuccess false. -/
theorem C6_republish_missing_inputs (ctx : Context) (r : Option IPNSRecord)
    (nm : String) (ip : Option Unit) (net : Except String Unit)
    (h : r = none ∨ nm = "" ∨ ip = none) :
    (republishRecordActor r nm ip net).2 = false ∧
    step ⟨.republishingRecord r nm ip, ctx⟩ (.republishSettled net) =
      ⟨.inspect, { ctx with
                   publishingRecord := false,
                   error := some "Missing required parameters",
                   publishSuccess := false }⟩ := by
  have hact : republishRecordActor r nm ip net =
      (.error "Missing required parameters", false) := by
    simp only [republishRecordActor, if_pos h]
  refine ⟨by rw [hact], ?_⟩
  simp only [step]
  rw [hact]

/-- C6 witness: a republish settlement with no record, an empty name and
no client. -/
theorem C6_republish_missing_inputs_witness :
    (republishRecordActor none "" none (.ok ())).2 = false ∧
    step ⟨.republishingRecord none "" none, initialContext⟩ (.republishSettled (.ok ())) =
      ⟨.inspect, { initialContext with
                   publishingRecord := false,
                   error := some "Missing required parameters",
                   publishSuccess := false }⟩ :=
  C6_republish_missing_inputs initialContext none "" none (.ok ()) (Or.inl rfl)

/-- The create-side record-mutating states: create itself and the three
operations reachable from it, plus importingRecord.  Every entry into
create resets publishSuccess, the IMPORT_RECORD transition resets it
explicitly, and nothing inside these states sets it, so publishSuccess
is invariantly false there. -/
def inCreateFamily : MState → Bool
  | .create => true
  | .creatingRecord _ _ _ => true
  | .publishingRecord _ _ _ => true
  | .importingRecord _ => true
  | _ => false

theorem publishSuccess_inv_step (s : MState) (c : Context) (e : Event)
    (hm : inCreateFamily s = true → c.publishSuccess = false) :
    inCreateFamily (step ⟨s, c⟩ e).state = true →
      (step ⟨s, c⟩ e).ctx.publishSuccess = false := by
  cases e <;> cases s <;>
    simp only [step] <;>
    (try split) <;>
    simp_all [inCreateFamily]

theorem publishSuccess_inv_run (evs : List Event) :
    ∀ m : Machine, (inCreateFamily m.state = true → m.ctx.publishSuccess = false) →
      inCreateFamily (run m evs).state = true →
        (run m evs).ctx.publishSuccess = false := by
  induction evs with
  | nil => intro m hm; exact hm
  | cons e t ih =>
    intro m hm
    have h1 : run m (e :: t) = run (step m e) t := rfl
    rw [h1]
    exact ih (step m e) (publishSuccess_inv_step m.state m.ctx e hm)

/-- A run that imports a record, republishes it successfully (setting
publishSuccess to true in inspect) and then launches a fetch. -/
def c3Trace : List Event :=
  [.initSettled (.ok ()),
   .importRecordEv (some ⟨"rec.bin", []⟩),
   .importSettled (.ok rec0) (.ok ()) (.ok ()),
   .publishRecordEv,
   .republishSettled (.ok ()),
   .inspectName]

/-- C3 counterexample: the INSPECT_NAME transition into verifyAndFetch is
record-mutating (it launches a fetch that replaces the record) but does
NOT reset publishSuccess: after a successful republish, publishSuccess
is still true while the fetch is in flight. -/
theorem C3_publishSuccess_fetch_cex :
    (run initialMachine c3Trace).state = .verifyAndFetch "" (some ()) ∧
    (run initialMachine c3Trace).ctx.fetchingRecord = true ∧
    (run initialMachine c3Trace).ctx.publishSuccess = true :=
  ⟨rfl, rfl, rfl⟩

/-- C3 amended: publishSuccess is false in create and while
creatingRecord, publishingRecord or importingRecord is in flight (the
IMPORT_RECORD transition resets it and every entry into create resets
it); it is NOT reset on entering verifyAndFetch or republishingRecord,
where it keeps its prior value. -/
theorem C3_publishSuccess_false_in_create_family (evs : List Event)
    (h : inCreateFamily (run initialMachine evs).state = true) :
    (run initialMachine evs).ctx.publishSuccess = false := by
  refine publishSuccess_inv_run evs initialMachine ?_ h
  intro h0
  simp [initialMachine, inCreateFamily] at h0

/-- C3 amended witness: after entering create, publishSuccess is false. -/
theorem C3_publishSuccess_false_witness :
    (run initialMachine [.initSettled (.ok ()), .updateMode .create]).ctx.publishSuccess
      = false :=
  C3_publishSuccess_false_in_create_family
    [.initSettled (.ok ()), .updateMode .create] rfl

/-! ## The parse / print round trip (C9) -/

theorem varintEncode_small (n : Nat) (h : n < 128) : varintEncode n = [n] := by
  unfold varintEncode
  simp [varintEncodeAux, h]

theorem protobuf_length (pk : PublicKey) (h : pk.bytes.length = 32) :
    (publicKeyToProtobuf pk).length = 36 := by
  simp [publicKeyToProtobuf, h]

theorem cidBytes_of_pk (pk : PublicKey) (h : pk.bytes.length = 32) :
    cidToBytes (publicKeyToCID pk) =
      1 :: 114 :: 0 :: 36 :: 8 :: 1 :: 18 :: 32 :: pk.bytes := by
  unfold cidToBytes publicKeyToCID peerIdFromPublicKey encodeMultihash
  rw [protobuf_length pk h, varintEncode_small 1 (by omega),
    varintEncode_small 114 (by omega), varintEncode_small 0 (by omega),
    varintEncode_small 36 (by omega)]
  simp [publicKeyToProtobuf]

theorem publicKeyFromProtobuf_toProtobuf (pk : PublicKey) (h : pk.bytes.length = 32) :
    publicKeyFromProtobuf (publicKeyToProtobuf pk) = some pk := by
  show publicKeyFromProtobuf (8 :: 1 :: 18 :: 32 :: pk.bytes) = some pk
  simp [publicKeyFromProtobuf, h]

theorem decodeMultihash_of_protobuf (pk : PublicKey) (h : pk.bytes.length = 32) :
    decodeMultihash (0 :: 36 :: publicKeyToProtobuf pk) =
      some (0, publicKeyToProtobuf pk) := by
  simp [decodeMultihash, varintDecode_small 0 (by omega),
    varintDecode_small 36 (by omega), protobuf_length pk h]

theorem cidFromBytes_of_pk (pk : PublicKey) (h : pk.bytes.length = 32) :
    cidFromBytes (cidToBytes (publicKeyToCID pk)) =
      some ⟨1, 114, 0 :: 36 :: publicKeyToProtobuf pk⟩ := by
  rw [cidBytes_of_pk pk h]
  show cidFromBytes (1 :: 114 :: 0 :: 36 :: publicKeyToProtobuf pk) = _
  simp [cidFromBytes, varintDecode_small 1 (by omega),
    varintDecode_small 114 (by omega), decodeMultihash_of_protobuf pk h]

theorem peerIdFromMultihash_of_pk (pk : PublicKey) (h : pk.bytes.length = 32) :
    peerIdFromMultihash (0 :: 36 :: publicKeyToProtobuf pk) =
      some ⟨0 :: 36 :: publicKeyToProtobuf pk, some pk⟩ := by
  simp [peerIdFromMultihash, decodeMultihash_of_protobuf pk h,
    publicKeyFromProtobuf_toProtobuf pk h]

/-- C9: every name produced by identityFromPublicKey is accepted by the
identity parser getPeerIdFromString, the parsed identity carries the
original public key, and printing that key again yields the same
string. -/
theorem C9_name_roundtrip (pk : PublicKey) (hlen : pk.bytes.length = 32)
    (hlt : ∀ x ∈ pk.bytes, x < 256) :
    ∃ pid : PeerId,
      getPeerIdFromString (getIPNSNameFromPublicKey pk) = some pid ∧
      pid.publicKey.map getIPNSNameFromPublicKey =
        some (getIPNSNameFromPublicKey pk) := by
  have hcid := cidBytes_of_pk pk hlen
  have hall : ∀ x ∈ (1 : Nat) :: 114 :: 0 :: 36 :: 8 :: 1 :: 18 :: 32 :: pk.bytes,
      x < 256 := by
    intro x hx
    simp only [List.mem_cons] at hx
    rcases hx with rfl | rfl | rfl | rfl | rfl | rfl | rfl | rfl | hx
    · omega
    · omega
    · omega
    · omega
    · omega
    · omega
    · omega
    · omega
    · exact hlt x hx
  have hdec : baseXDecode alpha36 (baseXEncode alpha36 (cidToBytes (publicKeyToCID pk)))
      = some (cidToBytes (publicKeyToCID pk)) := by
    rw [hcid]
    exact baseXDecode_baseXEncode alpha36 (by decide) alpha36_inv 1 _ (by decide) hall
  refine ⟨⟨0 :: 36 :: publicKeyToProtobuf pk, some pk⟩, ?_, rfl⟩
  have hstart : getPeerIdFromString (getIPNSNameFromPublicKey pk)
      = cidParse (getIPNSNameFromPublicKey pk) >>= peerIdFromCID := by
    show (if ('k' = '1' ∨ 'k' = 'Q')
          then peerIdFromString (getIPNSNameFromPublicKey pk)
          else cidParse (getIPNSNameFromPublicKey pk) >>= peerIdFromCID) = _
    rw [if_neg (by decide)]
  have hcp : cidParse (getIPNSNameFromPublicKey pk)
      = baseXDecode alpha36 (baseXEncode alpha36 (cidToBytes (publicKeyToCID pk)))
          >>= cidFromBytes := rfl
  rw [hstart, hcp, hdec]
  show cidFromBytes (cidToBytes (publicKeyToCID pk)) >>= peerIdFromCID = _
  rw [cidFromBytes_of_pk pk hlen]
  show peerIdFromCID ⟨1, 114, 0 :: 36 :: publicKeyToProtobuf pk⟩ = _
  show peerIdFromMultihash (0 :: 36 :: publicKeyToProtobuf pk) = _
  exact peerIdFromMultihash_of_pk pk hlen

/-- C9 witness: the concrete key `pk0` round-trips. -/
theorem C9_name_roundtrip_witness :
    pk0.bytes.length = 32 ∧
    ∃ pid : PeerId,
      getPeerIdFromString (getIPNSNameFromPublicKey pk0) = some pid ∧
      pid.publicKey.map getIPNSNameFromPublicKey =
        some (getIPNSNameFromPublicKey pk0) :=
  ⟨by decide, C9_name_roundtrip pk0 (by decide) (by decide)⟩

end IPNS
